import Mathlib

/-!
Verification of the scp-coghaz-maker pipeline: a shallow embedding of the
pixel-buffer corruption operator (coghaz.py) and of the fractal renderers and
the Gaussian gradient engine (fractal.py), with theorems settling the
specified properties.

Pixel buffers are stored by the reference implementation in numpy `int8`
arrays; channel values are modelled as integers and all numpy arithmetic on
them goes through `wrap8`, the signed 8-bit wraparound.  Python floats are
modelled as real numbers.
-/

namespace Coghaz

/-- Signed 8-bit wraparound, the semantics of numpy `int8` arithmetic:
the result is the representative of `n` mod 256 lying in `[-128, 127]`. -/
def wrap8 (n : ℤ) : ℤ := (n + 128) % 256 - 128

/-- The `axis` argument of `corrupt`. -/
inductive Axis where
  | x : Axis
  | y : Axis
deriving DecidableEq, Repr

/-- A pixel buffer: a list of rows of `int8` cells.  (Each RGB channel of the
numpy `(h, w, 3)` array is one cell; `corrupt` acts row-wise, so the flattening
of the trailing axes is semantics-preserving.) -/
abbrev Buffer := List (List ℤ)

/-- `np.zeros_like(src)`: a buffer of the same shape holding zeros. -/
def zerosLike (src : Buffer) : Buffer :=
  src.map (fun row => row.map (fun _ => 0))

/-- The overlay built by `offset_pix = np.zeros_like(src);
offset_pix[:-offset] = src[offset:]` for `offset ≥ 1`: the rows of `src`
shifted toward the origin by `offset`, the vacated trailing rows zero. -/
def overlayShift (src : Buffer) (offset : ℕ) : Buffer :=
  src.drop offset ++ (zerosLike src).drop (src.length - offset)

/-- Elementwise numpy addition of two equally shaped `int8` buffers:
cellwise sum with signed 8-bit wraparound. -/
def bufSum (a b : Buffer) : Buffer :=
  List.zipWith (List.zipWith (fun u v => wrap8 (u + v))) a b

/-- The slice `src[:]`: a view of the whole array, an identity both for
reading and as an assignment target. -/
def sliceAll (src : Buffer) : Buffer := src

/-- `corrupt(src, offset, axis)` from coghaz.py.  For `offset = 0` the slice
assignment `offset_pix[:-offset] = src[offset:]` targets the empty slice
`[:0]` with the whole buffer as source: numpy broadcasting stretches a
size-1 leading dimension to 0, so a buffer of at most one row is assigned as
a silent no-op (leaving the overlay zero), while a buffer of two or more
rows raises a broadcast `ValueError`, modelled as `Except.error`.  The `'x'`
branch is written `offset_pix[:][:-offset] = src[:][offset:]`; since `[:]`
is a whole-array view, it performs exactly the row shift of the `'y'`
branch. -/
def corrupt (src : Buffer) (offset : ℕ) (axis : Axis) : Except String Buffer :=
  match axis with
  | Axis.y =>
      if offset = 0 ∧ 2 ≤ src.length then
        Except.error "could not broadcast input array"
      else if offset = 0 then
        Except.ok (bufSum src (zerosLike src))
      else
        Except.ok (bufSum src (overlayShift src offset))
  | Axis.x =>
      if offset = 0 ∧ 2 ≤ (sliceAll src).length then
        Except.error "could not broadcast input array"
      else if offset = 0 then
        Except.ok (bufSum (sliceAll src) (zerosLike (sliceAll src)))
      else
        Except.ok (bufSum (sliceAll src) (overlayShift (sliceAll src) offset))

end Coghaz

namespace Fractal

noncomputable section

/-- `gaussian(x, a, b, c, d=0)` from fractal.py:
`a * exp(-(x - b)**2 / (2 * c**2)) + d`. -/
def gaussian (x a b c d : ℝ) : ℝ :=
  a * Real.exp (-(x - b) ^ 2 / (2 * c ^ 2)) + d

/-- A gradient control point `[location, (r, g, b)]`: `p.1` is the location,
`p.2.1`, `p.2.2.1`, `p.2.2.2` are the red, green and blue amplitudes. -/
abbrev ControlPoint := ℝ × ℝ × ℝ × ℝ

/-- `gradient(x, width, map, spread)` from fractal.py: per channel, the sum
over all control points of a Gaussian centred at `location * width` with
standard deviation `width / (spread * len(map))` and the channel's amplitude,
each channel clamped above at `1.0`. -/
def gradient (x width : ℝ) (map : List ControlPoint) (spread : ℝ) : ℝ × ℝ × ℝ :=
  let r := (map.map (fun p =>
    gaussian x p.2.1 (p.1 * width) (width / (spread * map.length)) 0)).sum
  let g := (map.map (fun p =>
    gaussian x p.2.2.1 (p.1 * width) (width / (spread * map.length)) 0)).sum
  let b := (map.map (fun p =>
    gaussian x p.2.2.2 (p.1 * width) (width / (spread * map.length)) 0)).sum
  (min 1 r, min 1 g, min 1 b)

/-- Python/numpy float-to-integer conversion: truncation toward zero. -/
def pyTrunc (v : ℝ) : ℤ :=
  if 0 ≤ v then ⌊v⌋ else -⌊-v⌋

/-- Storing a float channel value into a numpy `int8` cell: truncate toward
zero, then wrap into signed 8-bit range. -/
def storeChannel (v : ℝ) : ℤ := Coghaz.wrap8 (pyTrunc v)

/-- One stored pixel: an RGB triple of `int8` cells. -/
abbrev Pix := ℤ × ℤ × ℤ

/-- `pix[j][i] = (255 * r, 255 * g, 255 * b)` with `pix` of dtype `np.int8`:
each channel is scaled by 255 and stored as a signed 8-bit integer. -/
def setPixel (col : ℝ × ℝ × ℝ) : Pix :=
  (storeChannel (255 * col.1), storeChannel (255 * col.2.1),
    storeChannel (255 * col.2.2))

/-- `np.linspace(a, b, n)[k]`: `n` evenly spaced samples from `a` to `b`,
both endpoints included (for `n = 1`, the single sample is `a`). -/
def linspace (a b : ℝ) (n k : ℕ) : ℝ :=
  if n ≤ 1 then a else a + (b - a) * k / ((n : ℝ) - 1)

/-- The doubly nested generation loop: a height×width grid of pixels,
`grid[j][i] = f j i`. -/
def pixelGrid (h w : ℕ) (f : ℕ → ℕ → Pix) : List (List Pix) :=
  (List.range h).map (fun j => (List.range w).map (fun i => f j i))

/-- The escape-time loop shared by the Mandelbrot and Julia generators:
`while abs(z) < bound_limit and num_iterations < iter_limit: z = z**2 + c`,
returning `num_iterations`.  The fuel argument is the number of loop
iterations still allowed. -/
def mandelIterate (c : ℂ) (boundLimit : ℝ) : ℂ → ℕ → ℕ
  | _, 0 => 0
  | z, n + 1 =>
      if Complex.abs z < boundLimit then
        mandelIterate c boundLimit (z ^ 2 + c) n + 1
      else 0

/-- The `CustomFractal` generator configuration. -/
structure CustomFractal where
  function : ℝ → ℝ → ℝ
  bounds_x : ℝ × ℝ
  bounds_y : ℝ × ℝ
  colormap : List ControlPoint

/-- The body of `CustomFractal.generate`'s inner loop at coordinate `(x, y)`:
`r, g, b = gradient(self.function(x, y), 1, self.colormap)` then scale by 255
and store as `int8`. -/
def CustomFractal.pixel (self : CustomFractal) (x y : ℝ) : Pix :=
  setPixel (gradient (self.function x y) 1 self.colormap 1)

/-- `CustomFractal.generate(height, width)`: pixel `[j][i]` is computed at the
coordinate `(linspace(bounds_x)[i], linspace(bounds_y)[j])`. -/
def CustomFractal.generate (self : CustomFractal) (height width : ℕ) :
    List (List Pix) :=
  pixelGrid height width (fun j i =>
    self.pixel (linspace self.bounds_x.1 self.bounds_x.2 width i)
      (linspace self.bounds_y.1 self.bounds_y.2 height j))

/-- The `MandelbrotFractal` generator configuration. -/
structure MandelbrotFractal where
  bounds_real : ℝ × ℝ
  bounds_imag : ℝ × ℝ
  bound_limit : ℝ
  iter_limit : ℕ
  colormap : List ControlPoint

/-- The body of `MandelbrotFractal.generate`'s inner loop at coordinate
`(x, y)`: set `c = complex(x, y)`, run the escape-time loop starting at
`z = c`, pass `num_iterations / iter_limit` to the gradient, scale by 255 and
store as `int8`. -/
def MandelbrotFractal.pixel (self : MandelbrotFractal) (x y : ℝ) : Pix :=
  let c : ℂ := ⟨x, y⟩
  let n := mandelIterate c self.bound_limit c self.iter_limit
  setPixel (gradient ((n : ℝ) / (self.iter_limit : ℝ)) 1 self.colormap 1)

/-- `MandelbrotFractal.generate(height, width)`: pixel `[j][i]` is computed at
the coordinate `(linspace(bounds_real)[i], linspace(bounds_imag)[j])`. -/
def MandelbrotFractal.generate (self : MandelbrotFractal) (height width : ℕ) :
    List (List Pix) :=
  pixelGrid height width (fun j i =>
    self.pixel (linspace self.bounds_real.1 self.bounds_real.2 width i)
      (linspace self.bounds_imag.1 self.bounds_imag.2 height j))

/-- The `JuliaFractal` generator configuration. -/
structure JuliaFractal where
  c : ℂ
  bounds_real : ℝ × ℝ
  bounds_imag : ℝ × ℝ
  bound_limit : ℝ
  iter_limit : ℕ
  colormap : List ControlPoint

/-- The body of `JuliaFractal.generate`'s inner loop at coordinate `(x, y)`:
`z` starts at `complex(x, y)` and the loop adds the fixed constant `self.c`
each step. -/
def JuliaFractal.pixel (self : JuliaFractal) (x y : ℝ) : Pix :=
  let z : ℂ := ⟨x, y⟩
  let n := mandelIterate self.c self.bound_limit z self.iter_limit
  setPixel (gradient ((n : ℝ) / (self.iter_limit : ℝ)) 1 self.colormap 1)

/-- `JuliaFractal.generate(height, width)`: pixel `[j][i]` is computed at the
coordinate `(linspace(bounds_real)[i], linspace(bounds_imag)[j])`. -/
def JuliaFractal.generate (self : JuliaFractal) (height width : ℕ) :
    List (List Pix) :=
  pixelGrid height width (fun j i =>
    self.pixel (linspace self.bounds_real.1 self.bounds_real.2 width i)
      (linspace self.bounds_imag.1 self.bounds_imag.2 height j))

/-- `MandelbrotFractal.__init__`: the three `assert` statements run in order
(`bounds_real`, `bounds_imag`, `colormap`) before any field is set; a failed
assertion is a construction-time validation error, modelled as
`Except.error` carrying the assertion message. -/
def mkMandelbrotFractal (bounds_real bounds_imag : List ℝ) (bound_limit : ℝ)
    (iter_limit : ℕ) (colormap : List ControlPoint) :
    Except String MandelbrotFractal :=
  if bounds_real.length = 2 then
    if bounds_imag.length = 2 then
      if 2 ≤ colormap.length then
        Except.ok
          { bounds_real := (bounds_real.getD 0 0, bounds_real.getD 1 0)
            bounds_imag := (bounds_imag.getD 0 0, bounds_imag.getD 1 0)
            bound_limit := bound_limit
            iter_limit := iter_limit
            colormap := colormap }
      else Except.error "colormap must have at least two points"
    else Except.error "bounds_imag must have two values"
  else Except.error "bounds_real must have two values"

/-- The sum of the unit-amplitude Gaussian bumps of a gradient map whose
control points sit at the given locations: the common factor of every channel
of a constant-colour map. -/
def bumpSum (x width spread : ℝ) (locs : List ℝ) : ℝ :=
  (locs.map (fun l =>
    Real.exp (-(x - l * width) ^ 2 / (2 * (width / (spread * locs.length)) ^ 2)))).sum

/-- Reading entry `[j][i]` of a pixel buffer, with a default of the zero
pixel. -/
def listGet2 (buf : List (List Pix)) (j i : ℕ) : Pix :=
  (buf.getD j []).getD i (0, 0, 0)

/-- The concrete configuration exhibiting the `int8` overflow: a constant
scalar field coloured by an all-white two-point gradient map. -/
def overflowExample : CustomFractal :=
  { function := fun _ _ => 0
    bounds_x := (0, 1)
    bounds_y := (0, 1)
    colormap := [(0, 1, 1, 1), (1, 1, 1, 1)] }

/-- A concrete Mandelbrot configuration used as a corner-pixel witness. -/
def sampleMandelbrot : MandelbrotFractal :=
  { bounds_real := (0, 1)
    bounds_imag := (0, 1)
    bound_limit := 2
    iter_limit := 1
    colormap := [(0, 0, 0, 0), (1, 1, 1, 1)] }

/-- A concrete custom-function configuration used as a corner-pixel witness. -/
def sampleCustom : CustomFractal :=
  { function := fun x y => x + y
    bounds_x := (0, 1)
    bounds_y := (0, 1)
    colormap := [(0, 0, 0, 0), (1, 1, 1, 1)] }

/-- A concrete Julia configuration used as a corner-pixel witness. -/
def sampleJulia : JuliaFractal :=
  { c := ⟨-0.8, 0.156⟩
    bounds_real := (0, 1)
    bounds_imag := (0, 1)
    bound_limit := 2
    iter_limit := 1
    colormap := [(0, 0, 0, 0), (1, 1, 1, 1)] }

end

end Fractal

namespace Coghaz

/-- Claim C7: for every buffer and every offset with `0 < offset < height`,
the `'x'` branch of `corrupt` returns exactly the same buffer as the `'y'`
branch: the two branches are equivalent functions (the `'x'` branch also
shifts along the row axis, because `src[:]` is a whole-array view). -/
theorem corrupt_x_eq_corrupt_y (src : Buffer) (offset : ℕ)
    (h1 : 0 < offset) (h2 : offset < src.length) :
    corrupt src offset Axis.x = corrupt src offset Axis.y := rfl

/-- Witness for C7 at the concrete buffer `[[1, 2], [3, 4]]`, offset 1. -/
theorem corrupt_x_eq_corrupt_y_witness :
    0 < 1 ∧ 1 < ([[1, 2], [3, 4]] : Buffer).length ∧
      corrupt [[1, 2], [3, 4]] 1 Axis.x = corrupt [[1, 2], [3, 4]] 1 Axis.y :=
  ⟨by decide, by decide, corrupt_x_eq_corrupt_y _ 1 (by decide) (by decide)⟩

/-- Claim C1 (code bug): on the buffer `[[1, 2], [3, 4]]` with offset 1 the
`'x'` branch of `corrupt` produces the ROW-shifted sum `[[4, 6], [3, 4]]`,
not the column-shifted sum `[[3, 2], [7, 4]]` the specification describes:
`offset_pix[:][:-offset]` slices rows, not columns, so the column shift is
never performed. -/
theorem corrupt_x_axis_shifts_rows_bug :
    corrupt [[1, 2], [3, 4]] 1 Axis.x = Except.ok [[4, 6], [3, 4]] ∧
      corrupt [[1, 2], [3, 4]] 1 Axis.x ≠ Except.ok [[3, 2], [7, 4]] := by
  refine ⟨rfl, fun hcontra => ?_⟩
  exact absurd (Except.ok.inj hcontra) (by decide)

/-- Wrapping is the identity on values already inside the signed 8-bit
range. -/
theorem wrap8_eq_self (v : ℤ) (h1 : -128 ≤ v) (h2 : v ≤ 127) : wrap8 v = v := by
  unfold wrap8
  omega

/-- Adding an all-zero row to a row of in-range `int8` cells returns the row
unchanged. -/
theorem zipWith_wrap8_zero_row (row : List ℤ)
    (h : ∀ v ∈ row, -128 ≤ v ∧ v ≤ 127) :
    List.zipWith (fun u v => wrap8 (u + v)) row (row.map fun _ => 0) = row := by
  induction row with
  | nil => rfl
  | cons a t ih =>
      have ha := h a (by simp)
      have ht : ∀ v ∈ t, -128 ≤ v ∧ v ≤ 127 := fun v hv => h v (by simp [hv])
      simp only [List.map_cons, List.zipWith_cons_cons, add_zero, ih ht]
      rw [wrap8_eq_self a ha.1 ha.2]

/-- Adding the all-zero buffer to a buffer of in-range `int8` cells returns
the buffer unchanged. -/
theorem bufSum_zerosLike (src : Buffer)
    (h : ∀ row ∈ src, ∀ v ∈ row, -128 ≤ v ∧ v ≤ 127) :
    bufSum src (zerosLike src) = src := by
  induction src with
  | nil => rfl
  | cons r t ih =>
      have hr := h r (by simp)
      have ht : ∀ row ∈ t, ∀ v ∈ row, -128 ≤ v ∧ v ≤ 127 :=
        fun row hrow => h row (by simp [hrow])
      show List.zipWith (List.zipWith fun u v => wrap8 (u + v)) (r :: t)
        ((r :: t).map fun row => row.map fun _ => 0) = r :: t
      simp only [List.map_cons, List.zipWith_cons_cons]
      rw [zipWith_wrap8_zero_row r hr]
      have htail := ih ht
      simp only [bufSum, zerosLike] at htail
      rw [htail]

/-- Counterexample to claim C3: with `offset = 0` on the one-row buffer
`[[1]]`, `corrupt` returns the buffer unchanged (`[[1]]`, the size-1 source
broadcasts into the empty slice `[:-0]` as a no-op), not the doubled buffer
`[[2]]`; and on the two-row buffer `[[1], [2]]` it raises a numpy broadcast
error, again not the doubled buffer `[[2], [4]]`. -/
theorem corrupt_offset_zero_cex :
    (corrupt [[1]] 0 Axis.y = Except.ok [[1]] ∧
      corrupt [[1]] 0 Axis.y ≠ Except.ok [[2]]) ∧
      (corrupt [[1], [2]] 0 Axis.y =
          Except.error "could not broadcast input array" ∧
        corrupt [[1], [2]] 0 Axis.y ≠ Except.ok [[2], [4]]) := by
  refine ⟨⟨rfl, fun hc1 => ?_⟩, rfl, fun hc2 => ?_⟩
  · exact absurd (Except.ok.inj hc1) (by decide)
  · exact Except.noConfusion (Eq.trans (Eq.symm rfl) hc2)

/-- Claim C3 as amended: `corrupt(buffer, 0, axis)` never returns 2× the
buffer.  For a buffer of in-range `int8` cells: with two or more rows the
slice assignment `offset_pix[:-0] = src[0:]` fails with a broadcast error;
with at most one row the size-1 source broadcasts into the empty destination
slice as a silent no-op, so the overlay stays zero and the buffer is
returned unchanged (1×, not 2×). -/
theorem corrupt_offset_zero (src : Buffer) (axis : Axis)
    (h : ∀ row ∈ src, ∀ v ∈ row, -128 ≤ v ∧ v ≤ 127) :
    (2 ≤ src.length →
      corrupt src 0 axis = Except.error "could not broadcast input array") ∧
      (src.length ≤ 1 → corrupt src 0 axis = Except.ok src) := by
  constructor
  · intro h2
    cases axis <;> simp [corrupt, sliceAll, h2]
  · intro h1
    have hn : ¬ 2 ≤ src.length := by omega
    cases axis <;> simp [corrupt, sliceAll, hn, bufSum_zerosLike src h]

/-- Witness for the amended C3: the error side at the two-row buffer
`[[1], [2]]` and the unchanged-return side at the one-row buffer `[[7]]`. -/
theorem corrupt_offset_zero_witness :
    ((∀ row ∈ ([[1], [2]] : Buffer), ∀ v ∈ row, -128 ≤ v ∧ v ≤ 127) ∧
        corrupt [[1], [2]] 0 Axis.y =
          Except.error "could not broadcast input array") ∧
      ((∀ row ∈ ([[7]] : Buffer), ∀ v ∈ row, -128 ≤ v ∧ v ≤ 127) ∧
        corrupt [[7]] 0 Axis.y = Except.ok [[7]]) :=
  have h1 : ∀ row ∈ ([[1], [2]] : Buffer), ∀ v ∈ row, -128 ≤ v ∧ v ≤ 127 := by
    decide
  have h2 : ∀ row ∈ ([[7]] : Buffer), ∀ v ∈ row, -128 ≤ v ∧ v ≤ 127 := by
    decide
  ⟨⟨h1, (corrupt_offset_zero [[1], [2]] Axis.y h1).1 (by decide)⟩,
    ⟨h2, (corrupt_offset_zero [[7]] Axis.y h2).2 (by decide)⟩⟩

end Coghaz

namespace Fractal

/-- The escape-time loop stops immediately (returning 0 iterations) when the
starting point already violates `abs(z) < bound_limit`. -/
theorem mandelIterate_of_escaped (c z : ℂ) (bound : ℝ) (fuel : ℕ)
    (h : ¬ Complex.abs z < bound) : mandelIterate c bound z fuel = 0 := by
  cases fuel with
  | zero => rfl
  | succ n => simp [mandelIterate, h]

/-- The escape-time loop exhausts its fuel when the whole orbit up to the
fuel's length stays strictly below the bound. -/
theorem mandelIterate_eq_fuel (c : ℂ) (bound : ℝ) (z : ℂ) (fuel : ℕ)
    (h : ∀ k < fuel, Complex.abs ((fun w => w ^ 2 + c)^[k] z) < bound) :
    mandelIterate c bound z fuel = fuel := by
  induction fuel generalizing z with
  | zero => rfl
  | succ n ih =>
      have h0 : Complex.abs z < bound := by simpa using h 0 n.succ_pos
      have hrest : ∀ k < n,
          Complex.abs ((fun w => w ^ 2 + c)^[k] (z ^ 2 + c)) < bound := by
        intro k hk
        have h1 := h (k + 1) (Nat.succ_lt_succ hk)
        rw [Function.iterate_succ_apply] at h1
        exact h1
      simp [mandelIterate, h0, ih _ hrest]

/-- Claim C4: for every Mandelbrot configuration with `iter_limit > 0` and
every coordinate `c` whose orbit `z ← z² + c` (starting at `z = c`) stays
strictly below `bound_limit` in magnitude for `iter_limit` steps, the
iteration count equals `iter_limit` and the scalar passed to the gradient is
exactly `1.0`. -/
theorem mandel_interior_scalar_one (c : ℂ) (bound : ℝ) (limit : ℕ)
    (hpos : 0 < limit)
    (hbdd : ∀ k < limit, Complex.abs ((fun w => w ^ 2 + c)^[k] c) < bound) :
    mandelIterate c bound c limit = limit ∧
      (mandelIterate c bound c limit : ℝ) / (limit : ℝ) = 1 := by
  have hz := mandelIterate_eq_fuel c bound c limit hbdd
  refine ⟨hz, ?_⟩
  rw [hz]
  exact div_self (Nat.cast_ne_zero.mpr (Nat.pos_iff_ne_zero.mp hpos))

/-- Witness for C4 at the interior point `c = 0` with `bound_limit = 2` and
`iter_limit = 2`: the orbit is constantly `0`. -/
theorem mandel_interior_scalar_one_witness :
    ((0 < 2) ∧ ∀ k < 2, Complex.abs ((fun w => w ^ 2 + 0)^[k] 0) < 2) ∧
      mandelIterate 0 2 0 2 = 2 ∧
        (mandelIterate 0 2 0 2 : ℝ) / ((2 : ℕ) : ℝ) = 1 :=
  have hb : ∀ k < 2, Complex.abs ((fun w => w ^ 2 + 0)^[k] 0) < 2 := by
    intro k hk
    interval_cases k <;> norm_num
  ⟨⟨by norm_num, hb⟩, mandel_interior_scalar_one 0 2 2 (by norm_num) hb⟩

/-- Counterexample to claim C5: at `c = 10 + 10i` with `bound_limit = 2` and
`iter_limit = 100` the iteration count is `0`, not (approximately) `1`, and
the scalar passed to the gradient is exactly `0`, not `1/100`: the magnitude
test precedes the first loop iteration. -/
theorem mandel_immediate_escape_cex :
    mandelIterate ⟨10, 10⟩ 2 ⟨10, 10⟩ 100 = 0 ∧
      mandelIterate ⟨10, 10⟩ 2 ⟨10, 10⟩ 100 ≠ 1 ∧
      (mandelIterate ⟨10, 10⟩ 2 ⟨10, 10⟩ 100 : ℝ) / 100 = 0 := by
  have habs : (2 : ℝ) ≤ Complex.abs ⟨10, 10⟩ := by
    have h2 : |(10 : ℝ)| ≤ Complex.abs ⟨10, 10⟩ := Complex.abs_re_le_abs ⟨10, 10⟩
    rw [abs_of_pos (by norm_num : (0 : ℝ) < 10)] at h2
    linarith
  have hz := mandelIterate_of_escaped ⟨10, 10⟩ ⟨10, 10⟩ 2 100 (not_lt.mpr habs)
  refine ⟨hz, ?_, ?_⟩
  · rw [hz]; norm_num
  · rw [hz]; norm_num

/-- Claim C5 as amended: a coordinate whose magnitude is already at least
`bound_limit` (such as `c = 10 + 10i` with `bound_limit = 2`) yields an
iteration count of exactly `0`, so the scalar passed to the gradient is `0`:
the loop's magnitude test runs before the first iteration. -/
theorem mandel_immediate_escape_zero (c : ℂ) (bound : ℝ) (limit : ℕ)
    (h : bound ≤ Complex.abs c) :
    mandelIterate c bound c limit = 0 ∧
      (mandelIterate c bound c limit : ℝ) / (limit : ℝ) = 0 := by
  have hz := mandelIterate_of_escaped c c bound limit (not_lt.mpr h)
  exact ⟨hz, by rw [hz]; norm_num⟩

/-- Witness for the amended C5 at `c = 10 + 10i`, `bound_limit = 2`,
`iter_limit = 100`. -/
theorem mandel_immediate_escape_zero_witness :
    (2 : ℝ) ≤ Complex.abs ⟨10, 10⟩ ∧
      mandelIterate ⟨10, 10⟩ 2 ⟨10, 10⟩ 100 = 0 ∧
        (mandelIterate ⟨10, 10⟩ 2 ⟨10, 10⟩ 100 : ℝ) / ((100 : ℕ) : ℝ) = 0 :=
  have habs : (2 : ℝ) ≤ Complex.abs ⟨10, 10⟩ := by
    have h2 : |(10 : ℝ)| ≤ Complex.abs ⟨10, 10⟩ := Complex.abs_re_le_abs ⟨10, 10⟩
    rw [abs_of_pos (by norm_num : (0 : ℝ) < 10)] at h2
    linarith
  ⟨habs, mandel_immediate_escape_zero ⟨10, 10⟩ 2 100 habs⟩

/-- Claim C10: constructing a Mandelbrot generator succeeds exactly when
`bounds_real` and `bounds_imag` have exactly two values and the colormap has
at least 2 points; otherwise the construction itself (never the generation)
fails with the corresponding assertion message. -/
theorem mkMandelbrotFractal_ok_iff (br bi : List ℝ) (bl : ℝ) (il : ℕ)
    (cm : List ControlPoint) :
    (∃ f, mkMandelbrotFractal br bi bl il cm = Except.ok f) ↔
      br.length = 2 ∧ bi.length = 2 ∧ 2 ≤ cm.length := by
  unfold mkMandelbrotFractal
  split_ifs with h1 h2 h3 <;> simp_all

/-- A Gaussian bump with zero offset and a non-negative amplitude is
non-negative. -/
theorem gaussian_nonneg (x a b c : ℝ) (ha : 0 ≤ a) : 0 ≤ gaussian x a b c 0 := by
  unfold gaussian
  have := mul_nonneg ha (Real.exp_nonneg (-(x - b) ^ 2 / (2 * c ^ 2)))
  linarith

/-- Clamping a non-negative value below `1` keeps it inside `[0, 1]`. -/
theorem min_one_unit (s : ℝ) (hs : 0 ≤ s) : 0 ≤ min 1 s ∧ min 1 s ≤ 1 :=
  ⟨le_min (by norm_num) hs, min_le_left _ _⟩

/-- Claim C8: for every `x`, `width > 0`, `spread > 0` and gradient map with
at least 2 control points whose colour channels lie in `[0, 1]`, every
channel of `gradient(x, width, map, spread)` lies in `[0, 1]`: the Gaussian
contributions are non-negative and the result is clamped above at `1.0`. -/
theorem gradient_channels_unit_interval (x width spread : ℝ)
    (map : List ControlPoint) (hw : 0 < width) (hs : 0 < spread)
    (hlen : 2 ≤ map.length)
    (hcol : ∀ p ∈ map, 0 ≤ p.2.1 ∧ p.2.1 ≤ 1 ∧ 0 ≤ p.2.2.1 ∧ p.2.2.1 ≤ 1 ∧
      0 ≤ p.2.2.2 ∧ p.2.2.2 ≤ 1) :
    (0 ≤ (gradient x width map spread).1 ∧ (gradient x width map spread).1 ≤ 1) ∧
      (0 ≤ (gradient x width map spread).2.1 ∧
        (gradient x width map spread).2.1 ≤ 1) ∧
      (0 ≤ (gradient x width map spread).2.2 ∧
        (gradient x width map spread).2.2 ≤ 1) := by
  have hr : 0 ≤ (map.map (fun p =>
      gaussian x p.2.1 (p.1 * width) (width / (spread * map.length)) 0)).sum := by
    refine List.sum_nonneg ?_
    intro v hv
    rw [List.mem_map] at hv
    obtain ⟨p, hp, rfl⟩ := hv
    exact gaussian_nonneg _ _ _ _ (hcol p hp).1
  have hg : 0 ≤ (map.map (fun p =>
      gaussian x p.2.2.1 (p.1 * width) (width / (spread * map.length)) 0)).sum := by
    refine List.sum_nonneg ?_
    intro v hv
    rw [List.mem_map] at hv
    obtain ⟨p, hp, rfl⟩ := hv
    exact gaussian_nonneg _ _ _ _ (hcol p hp).2.2.1
  have hb : 0 ≤ (map.map (fun p =>
      gaussian x p.2.2.2 (p.1 * width) (width / (spread * map.length)) 0)).sum := by
    refine List.sum_nonneg ?_
    intro v hv
    rw [List.mem_map] at hv
    obtain ⟨p, hp, rfl⟩ := hv
    exact gaussian_nonneg _ _ _ _ (hcol p hp).2.2.2.2.1
  simp only [gradient]
  exact ⟨min_one_unit _ hr, min_one_unit _ hg, min_one_unit _ hb⟩

/-- Witness for C8 at `x = 0`, `width = 1`, `spread = 1` on the two-point
black-to-white map. -/
theorem gradient_channels_unit_interval_witness :
    ((0 : ℝ) < 1 ∧ (0 : ℝ) < 1 ∧
        2 ≤ ([(0, 0, 0, 0), (1, 1, 1, 1)] : List ControlPoint).length) ∧
      (0 ≤ (gradient 0 1 [(0, 0, 0, 0), (1, 1, 1, 1)] 1).1 ∧
          (gradient 0 1 [(0, 0, 0, 0), (1, 1, 1, 1)] 1).1 ≤ 1) ∧
        (0 ≤ (gradient 0 1 [(0, 0, 0, 0), (1, 1, 1, 1)] 1).2.1 ∧
          (gradient 0 1 [(0, 0, 0, 0), (1, 1, 1, 1)] 1).2.1 ≤ 1) ∧
        (0 ≤ (gradient 0 1 [(0, 0, 0, 0), (1, 1, 1, 1)] 1).2.2 ∧
          (gradient 0 1 [(0, 0, 0, 0), (1, 1, 1, 1)] 1).2.2 ≤ 1) :=
  have hcol : ∀ p ∈ ([(0, 0, 0, 0), (1, 1, 1, 1)] : List ControlPoint),
      0 ≤ p.2.1 ∧ p.2.1 ≤ 1 ∧ 0 ≤ p.2.2.1 ∧ p.2.2.1 ≤ 1 ∧
        0 ≤ p.2.2.2 ∧ p.2.2.2 ≤ 1 := by
    intro p hp
    fin_cases hp <;> norm_num
  ⟨⟨by norm_num, by norm_num, by norm_num⟩,
    gradient_channels_unit_interval 0 1 1 _ (by norm_num) (by norm_num)
      (by norm_num) hcol⟩

/-- Counterexample to claim C6: on the constant-colour map with both control
points white, at `x = 10` (with `width = 1`, `spread = 1`) the red channel of
the gradient differs from `min 1 1 = 1` by more than `1/2` — the output of a
constant-colour map is not approximately `(min 1 r, min 1 g, min 1 b)`
independent of `x`. -/
theorem gradient_const_map_not_flat_cex :
    (1 : ℝ) / 2 <
      |(gradient 10 1 [(0, 1, 1, 1), (1, 1, 1, 1)] 1).1 - min (1 : ℝ) 1| := by
  have hcalc : (gradient 10 1 [(0, 1, 1, 1), (1, 1, 1, 1)] 1).1
      = min 1 (Real.exp (-200) + Real.exp (-162)) := by
    unfold gradient gaussian
    norm_num
  have hexp2 : (4 : ℝ) < Real.exp 2 := by
    have h1 : (2 : ℝ) < Real.exp 1 := by
      have := Real.add_one_lt_exp (by norm_num : (1 : ℝ) ≠ 0)
      linarith
    have h2 : Real.exp 2 = Real.exp 1 * Real.exp 1 := by
      rw [← Real.exp_add]; norm_num
    nlinarith
  have hsmall : Real.exp (-200) + Real.exp (-162) < 1 / 2 := by
    have e1 : Real.exp (-200) ≤ Real.exp (-2) := Real.exp_le_exp.mpr (by norm_num)
    have e2 : Real.exp (-162) ≤ Real.exp (-2) := Real.exp_le_exp.mpr (by norm_num)
    have e3 : Real.exp (-2) < 1 / 4 := by
      rw [Real.exp_neg]
      have hpos : (0 : ℝ) < Real.exp 2 := Real.exp_pos 2
      rw [show (1 : ℝ) / 4 = ((4 : ℝ))⁻¹ by norm_num]
      exact (inv_lt_inv₀ hpos (by norm_num)).mpr hexp2
    linarith
  have hpos : (0 : ℝ) < Real.exp (-200) + Real.exp (-162) := by positivity
  rw [hcalc, min_eq_right (by linarith), min_self]
  rw [abs_of_nonpos (by linarith)]
  linarith

/-- Claim C6 as amended: on a map whose control points all carry the same
colour `(r, g, b)`, each channel of the gradient equals the channel amplitude
times the common sum of unit Gaussian bumps, clamped at `1`:
`gradient x width map spread = (min 1 (r * S x), min 1 (g * S x),
min 1 (b * S x))` where `S` is `bumpSum`; the output therefore varies with
`x` and is flat only where the bump sum is. -/
theorem gradient_const_map_channels (x width spread r g b : ℝ)
    (locs : List ℝ) :
    gradient x width (locs.map (fun l => (l, r, g, b))) spread =
      (min 1 (r * bumpSum x width spread locs),
        min 1 (g * bumpSum x width spread locs),
        min 1 (b * bumpSum x width spread locs)) := by
  have key : ∀ a : ℝ, (locs.map (fun l =>
      gaussian x a (l * width) (width / (spread * locs.length)) 0)).sum
      = a * bumpSum x width spread locs := by
    intro a
    unfold gaussian bumpSum
    simp only [add_zero]
    exact List.sum_map_mul_left locs _ a
  unfold gradient
  simp only [List.map_map, List.length_map, Function.comp_def]
  rw [key r, key g, key b]

/-- Reading an in-bounds entry of the generation grid returns the loop body's
pixel. -/
theorem pixelGrid_entry (h w : ℕ) (f : ℕ → ℕ → Pix) (j i : ℕ)
    (hj : j < h) (hi : i < w) : listGet2 (pixelGrid h w f) j i = f j i := by
  unfold listGet2 pixelGrid
  rw [List.getD_eq_getElem?_getD]
  simp [List.getElem?_map, List.getElem?_range hj]
  simp [List.getElem?_range hi]

/-- `np.linspace` starts at the left endpoint. -/
theorem linspace_zero (a b : ℝ) (n : ℕ) : linspace a b n 0 = a := by
  unfold linspace
  split <;> simp

/-- `np.linspace` ends at the right endpoint. -/
theorem linspace_last (a b : ℝ) (n : ℕ) (hn : 1 < n) :
    linspace a b n (n - 1) = b := by
  unfold linspace
  rw [if_neg (by omega)]
  have hne : ((n : ℝ) - 1) ≠ 0 := by
    have h1 : (1 : ℝ) < (n : ℝ) := by exact_mod_cast hn
    linarith
  have hcast : (((n - 1 : ℕ)) : ℝ) = (n : ℝ) - 1 := by
    have h1 : 1 ≤ n := le_of_lt hn
    push_cast [h1]
    ring
  rw [hcast, mul_div_assoc, div_self hne, mul_one]
  ring

/-- Consecutive `np.linspace` samples are a constant step apart. -/
theorem linspace_step (a b : ℝ) (n k : ℕ) (h : k + 1 < n) :
    linspace a b n (k + 1) - linspace a b n k = (b - a) / ((n : ℝ) - 1) := by
  unfold linspace
  rw [if_neg (by omega), if_neg (by omega)]
  have hne : ((n : ℝ) - 1) ≠ 0 := by
    have h1 : (1 : ℝ) < (n : ℝ) := by exact_mod_cast (by omega : 1 < n)
    linarith
  push_cast
  field_simp
  ring

/-- Claim C9: for every Mandelbrot, custom and Julia configuration and all
`height, width > 1`, pixel `[0][0]` of `generate(height, width)` is computed
from the coordinate `(min_x, min_y)` and pixel `[height-1][width-1]` from
`(max_x, max_y)`, and the sample points are evenly spaced across the bounds
with both endpoints included. -/
theorem generate_corner_pixels (m : MandelbrotFractal) (cu : CustomFractal)
    (ju : JuliaFractal) (h w : ℕ) (hh : 1 < h) (hw : 1 < w) :
    (listGet2 (m.generate h w) 0 0 = m.pixel m.bounds_real.1 m.bounds_imag.1 ∧
      listGet2 (m.generate h w) (h - 1) (w - 1) =
        m.pixel m.bounds_real.2 m.bounds_imag.2) ∧
      (listGet2 (cu.generate h w) 0 0 = cu.pixel cu.bounds_x.1 cu.bounds_y.1 ∧
        listGet2 (cu.generate h w) (h - 1) (w - 1) =
          cu.pixel cu.bounds_x.2 cu.bounds_y.2) ∧
      (listGet2 (ju.generate h w) 0 0 =
          ju.pixel ju.bounds_real.1 ju.bounds_imag.1 ∧
        listGet2 (ju.generate h w) (h - 1) (w - 1) =
          ju.pixel ju.bounds_real.2 ju.bounds_imag.2) ∧
      ∀ a b : ℝ, ∀ k : ℕ, k + 1 < w →
        linspace a b w (k + 1) - linspace a b w k = (b - a) / ((w : ℝ) - 1) := by
  have h0h : 0 < h := by omega
  have h0w : 0 < w := by omega
  have hh1 : h - 1 < h := by omega
  have hw1 : w - 1 < w := by omega
  refine ⟨⟨?_, ?_⟩, ⟨?_, ?_⟩, ⟨?_, ?_⟩, fun a b k hk => linspace_step a b w k hk⟩
  · rw [MandelbrotFractal.generate, pixelGrid_entry h w _ 0 0 h0h h0w,
      linspace_zero, linspace_zero]
  · rw [MandelbrotFractal.generate, pixelGrid_entry h w _ (h - 1) (w - 1) hh1 hw1,
      linspace_last _ _ _ hw, linspace_last _ _ _ hh]
  · rw [CustomFractal.generate, pixelGrid_entry h w _ 0 0 h0h h0w,
      linspace_zero, linspace_zero]
  · rw [CustomFractal.generate, pixelGrid_entry h w _ (h - 1) (w - 1) hh1 hw1,
      linspace_last _ _ _ hw, linspace_last _ _ _ hh]
  · rw [JuliaFractal.generate, pixelGrid_entry h w _ 0 0 h0h h0w,
      linspace_zero, linspace_zero]
  · rw [JuliaFractal.generate, pixelGrid_entry h w _ (h - 1) (w - 1) hh1 hw1,
      linspace_last _ _ _ hw, linspace_last _ _ _ hh]

/-- Witness for C9 at the three sample configurations with a 2×2 image. -/
theorem generate_corner_pixels_witness :
    (1 < 2 ∧ 1 < 2) ∧
      (listGet2 (sampleMandelbrot.generate 2 2) 0 0 =
          sampleMandelbrot.pixel sampleMandelbrot.bounds_real.1
            sampleMandelbrot.bounds_imag.1 ∧
        listGet2 (sampleMandelbrot.generate 2 2) (2 - 1) (2 - 1) =
          sampleMandelbrot.pixel sampleMandelbrot.bounds_real.2
            sampleMandelbrot.bounds_imag.2) ∧
      (listGet2 (sampleCustom.generate 2 2) 0 0 =
          sampleCustom.pixel sampleCustom.bounds_x.1 sampleCustom.bounds_y.1 ∧
        listGet2 (sampleCustom.generate 2 2) (2 - 1) (2 - 1) =
          sampleCustom.pixel sampleCustom.bounds_x.2 sampleCustom.bounds_y.2) ∧
      (listGet2 (sampleJulia.generate 2 2) 0 0 =
          sampleJulia.pixel sampleJulia.bounds_real.1
            sampleJulia.bounds_imag.1 ∧
        listGet2 (sampleJulia.generate 2 2) (2 - 1) (2 - 1) =
          sampleJulia.pixel sampleJulia.bounds_real.2
            sampleJulia.bounds_imag.2) ∧
      ∀ a b : ℝ, ∀ k : ℕ, k + 1 < 2 →
        linspace a b 2 (k + 1) - linspace a b 2 k = (b - a) / ((2 : ℕ) - 1) :=
  ⟨⟨by norm_num, by norm_num⟩,
    generate_corner_pixels sampleMandelbrot sampleCustom sampleJulia 2 2
      (by norm_num) (by norm_num)⟩

/-- Claim C2 (code bug): the pixel buffer is allocated as `np.int8`, so a
channel computed as `255` (here: every channel of the single pixel of the
all-white configuration `overflowExample`) is stored as `-1` — it wraps
instead of surviving storage as the 8-bit value `255 ∈ [0, 255]`. -/
theorem int8_wraparound_bug :
    overflowExample.generate 1 1 = [[(-1, -1, -1)]] := by
  have hone : (1 : ℝ) ≤ 1 + Real.exp (-2) := by
    have := Real.exp_nonneg (-2)
    linarith
  have hmin : min (1 : ℝ) (1 + Real.exp (-2)) = 1 := min_eq_left hone
  have hgrid : ∀ g : ℕ → ℕ → Pix, pixelGrid 1 1 g = [[g 0 0]] := fun g => rfl
  unfold CustomFractal.generate
  rw [hgrid]
  unfold CustomFractal.pixel overflowExample linspace gradient gaussian setPixel
    storeChannel pyTrunc Coghaz.wrap8
  norm_num [hmin]

end Fractal
